import Mathlib

/-!
Verification development for the pyNTM single-link network Model
(files model.py, circuit.py, srlg.py of the repository, plus parts of the
data model that the repository defines in interface.py / node.py /
master_model.py, which are modelled from the specification where noted).

Conventions of the shallow embedding:
* Python objects become Lean structures; the object arena is a list, and the
  in-place mutation of an object found by a lookup becomes replacement of the
  corresponding list entry (object identity = the identity key of the entity,
  which is unique in every validated model).
* Python floats become exact rationals.  The arithmetic used by the code
  (sum, difference, product, division by 100, order comparison) is written
  with executable mkRat-based operations qadd, qsub, qmul, qdiv100, qle;
  the bridging lemmas qadd_eq, qsub_eq, qmul_eq, qdiv100_eq and qle_iff prove
  them equal to the field operations of the rationals, so every statement can
  be read with ordinary rational arithmetic.
* Methods that can raise become functions returning the mutated model
  together with an optional error (Python mutations performed before a raise
  survive the raise, so the mutated model is returned in both cases).
* The networkx graph library is an external collaborator; per the spec it
  must provide a weighted digraph, all-min-weight-paths and bounded simple
  paths.  DiGraph below embeds the digraph (edge insertion overwrites the
  weight of an existing (u,v) edge, as in networkx), and the path queries are
  realised by simple-path enumeration, which is the contract the spec states.
-/

namespace pyNTM

/-- Natural number injected into the rationals through mkRat (kernel-reducible,
unlike the numeral instances). -/
def q (n : Nat) : ℚ := mkRat (Int.ofNat n) 1

/-- Executable addition on the rationals. -/
def qadd (a b : ℚ) : ℚ := mkRat (a.num * b.den + b.num * a.den) (a.den * b.den)

/-- Executable subtraction on the rationals. -/
def qsub (a b : ℚ) : ℚ := mkRat (a.num * b.den - b.num * a.den) (a.den * b.den)

/-- Executable multiplication on the rationals. -/
def qmul (a b : ℚ) : ℚ := mkRat (a.num * b.num) (a.den * b.den)

/-- Executable division by 100 on the rationals (the only division the
modelled code performs). -/
def qdiv100 (a : ℚ) : ℚ := mkRat a.num (a.den * 100)

/-- Executable order comparison on the rationals. -/
def qle (a b : ℚ) : Bool := decide (a.num * (b.den : Int) ≤ b.num * (a.den : Int))

/-- Modelled from the spec: interface.py is not under src/.  Per the data
model of the spec an Interface carries name, cost (integer routing metric),
capacity, owning and remote Node (held by name, the arena style the spec
recommends for the cyclic back-references), circuit_id, rsvp_enabled,
percent_reservable_bandwidth, failed, reserved_bandwidth and traffic.
The in_ckt flag is set by Model._make_circuits in model.py. -/
structure Interface where
  name : String
  cost : Nat
  capacity : ℚ
  node_name : String
  remote_node_name : String
  circuit_id : Option Nat
  rsvp_enabled : Bool
  percent_reservable_bandwidth : ℚ
  failed : Bool
  reserved_bandwidth : ℚ
  traffic : ℚ
  in_ckt : Bool
deriving DecidableEq, Repr

/-- Identity of an Interface: the (name, owning-node-name) pair, source
property Interface._key. -/
def Interface.key (i : Interface) : String × String := (i.name, i.node_name)

/-- Modelled from the spec: derived attribute reservable_bandwidth =
capacity * percent_reservable_bandwidth / 100 - reserved_bandwidth (the
bridging theorem reservable_bandwidth_eq below restates it with the field
operations of the rationals). -/
def Interface.reservable_bandwidth (i : Interface) : ℚ :=
  qsub (qdiv100 (qmul i.capacity i.percent_reservable_bandwidth)) i.reserved_bandwidth

/-- Modelled from the spec: node.py is not under src/.  A Node has a unique
name, a failed flag, and membership in zero or more SRLGs (held by SRLG
name). -/
structure Node where
  name : String
  failed : Bool
  srlgs : List String
deriving DecidableEq, Repr

/-- Path state of a Demand: the literal Unrouted or a list of parallel route
options, each an ordered Interface (key) sequence. -/
inductive DemandPath where
  | unrouted : DemandPath
  | routed (routes : List (List (String × String))) : DemandPath
deriving DecidableEq, Repr

/-- Demand: traffic load with source, destination, name, magnitude and a
path state. -/
structure Demand where
  source_node_name : String
  dest_node_name : String
  name : String
  magnitude : ℚ
  path : DemandPath
deriving DecidableEq, Repr

/-- Path state of an RSVP LSP: Unrouted or a routed dict holding the ordered
Interface (key) sequence (the interfaces entry the code subscripts). -/
inductive LspPath where
  | unrouted : LspPath
  | routed (interfaces : List (String × String)) : LspPath
deriving DecidableEq, Repr

/-- RSVP LSP with identity (source, dest, name), its path state and the
bandwidth it has reserved along that path. -/
structure RSVP_LSP where
  source_node_name : String
  dest_node_name : String
  name : String
  path : LspPath
  reserved_bandwidth : ℚ
deriving DecidableEq, Repr

/-- SRLG exactly as srlg.py defines it: a name plus circuit_objects and
node_objects collections.  The class defines neither a failed attribute nor
an interface_objects attribute (model.py nevertheless reads
srlg.interface_objects and assigns srlg.failed; see fail_srlg below).
Circuits are held as pairs of Interface keys and member Nodes by name. -/
structure SRLG where
  name : String
  circuit_objects : List ((String × String) × (String × String))
  node_objects : List String
deriving DecidableEq, Repr

/-- The aggregate Model of model.py: interface, node, demand, RSVP LSP and
SRLG sets, plus the circuit set that _make_circuits derives (a circuit is
the pair of the keys of its two interfaces). -/
structure Model where
  interface_objects : List Interface
  node_objects : List Node
  demand_objects : List Demand
  rsvp_lsp_objects : List RSVP_LSP
  srlg_objects : List SRLG
  circuit_objects : List ((String × String) × (String × String))
deriving DecidableEq, Repr

/-- Exceptions the modelled methods can raise.  ModelException payloads are
identified by constructor instead of message text; attributeError models a
Python AttributeError (reading an attribute the class does not define). -/
inductive VErr where
  | ints_w_no_remote_int (data : List (String × String × Nat)) : VErr
  | int_res_bw_too_high (keys : List (String × String)) : VErr
  | int_res_bw_sum_error (keys : List (String × String)) : VErr
  | duplicate_interfaces_on_node (keys : List (String × String)) : VErr
  | circuits_with_mismatched_interface_capacity
      (pairs : List ((String × String) × (String × String))) : VErr
  | multiple_links_between_nodes (links : List String) : VErr
  | srlg_errors (errs : List (String × List String)) : VErr
  | duplicate_node_names (len_node_objects len_node_names : Nat) : VErr
deriving DecidableEq, Repr

inductive ModelError where
  | interfaceNotFound : ModelError
  | nodeNotFound : ModelError
  | srlgNotFound : ModelError
  | blockedUnfail : ModelError
  | circuitsNotMatched (unmatched : List (String × String × Nat)) : ModelError
  | validationFailed (errors : List VErr) : ModelError
  | attributeError : ModelError
deriving DecidableEq, Repr

/-- Weighted directed graph, the shape the networkx collaborator exposes:
a vertex list and an edge list of (from, to, weight) triples with at most
one edge per (from, to) pair. -/
structure DiGraph where
  nodes : List String
  edges : List (String × String × Nat)
deriving DecidableEq, Repr

def DiGraph.empty : DiGraph := ⟨[], []⟩

/-- Does the graph hold an edge from u to v (any weight)? -/
def hasEdge (g : DiGraph) (u v : String) : Bool :=
  g.edges.any (fun e => e.1 == u && e.2.1 == v)

/-- Add a vertex (no-op when present), as networkx add_node. -/
def addNode (g : DiGraph) (n : String) : DiGraph :=
  if g.nodes.contains n then g else { g with nodes := g.nodes ++ [n] }

/-- Add one weighted edge, as networkx add_edge: both endpoints are added as
vertices and an existing (u,v) edge has its weight overwritten in place. -/
def addWeightedEdge (g : DiGraph) (u v : String) (w : Nat) : DiGraph :=
  let g1 := addNode (addNode g u) v
  if hasEdge g1 u v then
    { g1 with edges := g1.edges.map (fun e => if e.1 == u && e.2.1 == v then (u, v, w) else e) }
  else
    { g1 with edges := g1.edges ++ [(u, v, w)] }

/-- networkx add_weighted_edges_from. -/
def addWeightedEdgesFrom (g : DiGraph) (es : List (String × String × Nat)) : DiGraph :=
  es.foldl (fun g2 e => addWeightedEdge g2 e.1 e.2.1 e.2.2) g

/-- networkx add_nodes_from. -/
def addNodesFrom (g : DiGraph) (ns : List String) : DiGraph :=
  ns.foldl addNode g

/-- Model._make_weighted_network_graph (model.py): edges for the interfaces
that meet the failed and reservable-bandwidth criteria (and rsvp_enabled when
rsvp_required), then every model Node as a vertex.  The source name carries a
leading underscore. -/
def make_weighted_network_graph (m : Model) (include_failed_circuits : Bool)
    (needed_bw : ℚ) (rsvp_required : Bool) : DiGraph :=
  let considered :=
    if include_failed_circuits then
      m.interface_objects.filter (fun i => qle needed_bw i.reservable_bandwidth)
    else
      m.interface_objects.filter (fun i => !i.failed && qle needed_bw i.reservable_bandwidth)
  let edge_ifaces := if rsvp_required then considered.filter (fun i => i.rsvp_enabled) else considered
  let edge_names := edge_ifaces.map (fun i => (i.node_name, i.remote_node_name, i.cost))
  let G := addWeightedEdgesFrom DiGraph.empty edge_names
  addNodesFrom G (m.node_objects.map Node.name)

/-- Edge eligibility as the spec contract for the graph builder states it:
not failed (unless include_failed), reservable_bandwidth at least
needed_bandwidth, and rsvp_enabled when rsvp_only. -/
def graphEligible (include_failed : Bool) (needed_bw : ℚ) (rsvp_only : Bool)
    (i : Interface) : Bool :=
  (include_failed || !i.failed) && qle needed_bw i.reservable_bandwidth
    && (!rsvp_only || i.rsvp_enabled)

/-- Model.get_interface_object_from_nodes: the first Interface whose owning
and remote node names match; Python falls off the loop and returns None when
there is no match. -/
def get_interface_object_from_nodes (m : Model) (local_name remote_name : String) :
    Option Interface :=
  m.interface_objects.find?
    (fun i => i.node_name == local_name && i.remote_node_name == remote_name)

/-- Model._convert_nx_path_to_model_path: for each hop of the node sequence
(looked up by its first index, as list.index does) with a successor, append
the interface resolved from the hop pair; the entry is None when no Interface
matches. -/
def convert_nx_path_to_model_path (m : Model) (p : List String) :
    List (Option Interface) :=
  p.filterMap (fun hop =>
    match p[p.indexOf hop + 1]? with
    | some next_hop => some (get_interface_object_from_nodes m hop next_hop)
    | none => none)

/-- Model.get_node_object, as an Option (the source raises when the name is
absent; callers below turn the none case into the raised error). -/
def get_node_object (m : Model) (node_name : String) : Option Node :=
  m.node_objects.find? (fun n => n.name == node_name)

/-- Modelled from the spec: Interface.get_remote_interface lives in the
missing interface.py; per the spec the remote interface is resolved by
(remote node, circuit partner) lookup, i.e. the Interface on the remote Node
sharing the circuit_id. -/
def get_remote_interface (m : Model) (i : Interface) : Option Interface :=
  m.interface_objects.find?
    (fun j => j.node_name == i.remote_node_name && j.circuit_id == i.circuit_id)

/-- Model.get_interface_object: _does_interface_exist check (raises when the
(name, node) key is absent), then the node lookup (raises when the node is
absent), then the first interface of that node with the wanted name. -/
def get_interface_object (m : Model) (interface_name node_name : String) :
    Except ModelError Interface :=
  if m.interface_objects.any (fun i => i.name == interface_name && i.node_name == node_name) then
    match get_node_object m node_name with
    | none => Except.error ModelError.nodeNotFound
    | some _ =>
      match m.interface_objects.find?
          (fun i => i.node_name == node_name && i.name == interface_name) with
      | some i => Except.ok i
      | none => Except.error ModelError.interfaceNotFound
  else Except.error ModelError.interfaceNotFound

/-- In-place mutation of the Interface object with the given key (Python
mutates the object reference; with the unique (name, node) keys of a valid
model this is replacement of the key-matching entries). -/
def updateInterface (m : Model) (k : String × String) (f : Interface → Interface) : Model :=
  { m with interface_objects :=
      m.interface_objects.map (fun j => if j.key = k then f j else j) }

/-- In-place mutation of the Node object with the given name. -/
def updateNode (m : Model) (node_name : String) (f : Node → Node) : Model :=
  { m with node_objects :=
      m.node_objects.map (fun n => if n.name = node_name then f n else n) }

/-- Model.fail_interface: look the interface up, find its paired remote
interface, set failed on both (remote first, as the source does). -/
def fail_interface (m : Model) (interface_name node_name : String) :
    Model × Option ModelError :=
  match get_interface_object m interface_name node_name with
  | Except.error e => (m, some e)
  | Except.ok i =>
    match get_remote_interface m i with
    | none => (m, some ModelError.attributeError)
    | some r =>
      let m1 := updateInterface m r.key (fun j => { j with failed := true })
      let m2 := updateInterface m1 i.key (fun j => { j with failed := true })
      (m2, none)

/-- Reachability in the embedded digraph: the reflexive-transitive closure of
the edge relation. -/
inductive Reach (g : DiGraph) : String → String → Prop
  | refl (u : String) : Reach g u u
  | step {u v w : String} : hasEdge g u v = true → Reach g v w → Reach g u w

/-- Successor vertices of u in the graph. -/
def successors (g : DiGraph) (u : String) : List String :=
  (g.edges.filter (fun e => e.1 == u)).map (fun e => e.2.1)

/-- Fuelled depth-first enumeration of simple paths from u to dst avoiding
the visited vertices; realises the all-simple-paths capability the spec
requires of the graph collaborator. -/
def simplePathsAux (g : DiGraph) (dst : String) :
    Nat → String → List String → List (List String)
  | 0, _, _ => []
  | fuel + 1, u, visited =>
    if u == dst then [[u]]
    else
      ((successors g u).filter (fun v => !(visited.contains v) && !(v == u))).flatMap
        (fun v => (simplePathsAux g dst fuel v (u :: visited)).map (fun p2 => u :: p2))

/-- All simple paths from src to dst. -/
def simplePaths (g : DiGraph) (src dst : String) : List (List String) :=
  simplePathsAux g dst (g.nodes.length + 1) src []

/-- Weight of the (u,v) edge (0 when absent; total cost is only read on
existing paths). -/
def edgeWeight (g : DiGraph) (u v : String) : Nat :=
  match g.edges.find? (fun e => e.1 == u && e.2.1 == v) with
  | some e => e.2.2
  | none => 0

/-- Total weight of a node-sequence path. -/
def pathCost (g : DiGraph) : List String → Nat
  | [] => 0
  | [_] => 0
  | u :: v :: rest => edgeWeight g u v + pathCost g (v :: rest)

/-- All paths of minimum total weight, the networkx all_shortest_paths
capability: the simple paths whose cost is the minimum. -/
def allShortestPaths (g : DiGraph) (src dst : String) : List (List String) :=
  let ps := simplePaths g src dst
  match (ps.map (pathCost g)).min? with
  | none => []
  | some c => ps.filter (fun p => pathCost g p == c)

/-- Minimum path weight from src to dst (only read when a path exists). -/
def shortest_path_length (g : DiGraph) (src dst : String) : Nat :=
  (((simplePaths g src dst).map (pathCost g)).min?).getD 0

/-- Return shape of Model.get_shortest_path: the dict with the path list and
the cost (None before any path is found). -/
structure ShortestPathResult where
  path : List (List (Option Interface))
  cost : Option Nat
deriving DecidableEq, Repr

/-- Model.get_shortest_path: build the failure- and bandwidth-filtered graph,
initialise the result as empty path list with null cost, then fill it from
all shortest paths.  networkx raises when no path exists (or an endpoint is
no graph node); the bare except of the source returns the initialised result,
embedded here by the empty-path-list test. -/
def get_shortest_path (m : Model) (source_node_name dest_node_name : String)
    (needed_bw : ℚ) : ShortestPathResult :=
  let G := make_weighted_network_graph m false needed_bw false
  let paths := allShortestPaths G source_node_name dest_node_name
  if paths.isEmpty then { path := [], cost := none }
  else
    { path := paths.map (convert_nx_path_to_model_path m),
      cost := some (shortest_path_length G source_node_name dest_node_name) }

/-- First Interface with the given (name, node) key. -/
def findIntfByKey (m : Model) (k : String × String) : Option Interface :=
  m.interface_objects.find? (fun i => i.name == k.1 && i.node_name == k.2)

/-- Replace the first list entry satisfying the predicate (the object that a
Python first-match lookup returns and then mutates in place). -/
def updateFirstIntf : List Interface → (Interface → Bool) → (Interface → Interface) → List Interface
  | [], _, _ => []
  | x :: xs, p, f => if p x then f x :: xs else x :: updateFirstIntf xs p f

/-- Mutate the first Interface with the given owning/remote node names. -/
def setFirstByNodes (m : Model) (u v : String) (f : Interface → Interface) : Model :=
  { m with interface_objects :=
      (updateFirstIntf m.interface_objects
        (fun i => i.node_name == u && i.remote_node_name == v) f) }

/-- One iteration of the circuit-pairing loop of Model._make_circuits: for a
paired edge (u,v) fetch the two interfaces, and when neither is in a circuit
yet mark both in_ckt, stamp both with the running circuit id and record the
Circuit.  A failed object fetch would surface as an AttributeError in the
source (unreachable for edges that were built from interfaces). -/
def make_circuits_step
    (st : Model × Nat × List ((String × String) × (String × String)) × Option ModelError)
    (e : String × String × Nat) :
    Model × Nat × List ((String × String) × (String × String)) × Option ModelError :=
  match st with
  | (m, cid, ckts, some err) => (m, cid, ckts, some err)
  | (m, cid, ckts, none) =>
    match get_interface_object_from_nodes m e.1 e.2.1,
        get_interface_object_from_nodes m e.2.1 e.1 with
    | some i1, some i2 =>
      if !i1.in_ckt && !i2.in_ckt then
        let m1 := setFirstByNodes m e.1 e.2.1
          (fun j => { j with in_ckt := true, circuit_id := some cid })
        let m2 := setFirstByNodes m1 e.2.1 e.1
          (fun j => { j with in_ckt := true, circuit_id := some cid })
        (m2, cid + 1, ckts ++ [(i1.key, i2.key)], none)
      else (m, cid, ckts, none)
    | _, _ => (m, cid, ckts, some ModelError.attributeError)

/-- Post-loop tail of Model._make_circuits: raise a pending loop error, else
raise on unmatched edges, else store the circuit set. -/
def make_circuits_finish (unmatched : List (String × String × Nat))
    (st : Model × Nat × List ((String × String) × (String × String)) × Option ModelError) :
    Model × Option ModelError :=
  match st with
  | (m2, _, _, some err) => (m2, some err)
  | (m2, _, ckts, none) =>
    if unmatched.isEmpty then ({ m2 with circuit_objects := ckts }, none)
    else (m2, some (ModelError.circuitsNotMatched unmatched))

/-- Model._make_circuits with return_exception=True (the call validate_model
makes): graph over all interfaces (failed included, needed_bw 0), pair the
edges that have a reverse edge, reset in_ckt and renumber circuit ids through
the pairing loop, then raise on edges without a reverse (mutations performed
before the raise survive it); on success store the circuit set. -/
def make_circuits (m : Model) : Model × Option ModelError :=
  let G := make_weighted_network_graph m true (q 0) false
  let paired := G.edges.filter (fun e => hasEdge G e.2.1 e.1)
  let unmatched := G.edges.filter (fun e => !(hasEdge G e.2.1 e.1))
  let m1 := { m with interface_objects :=
      m.interface_objects.map (fun i => { i with in_ckt := false }) }
  make_circuits_finish unmatched (paired.foldl make_circuits_step (m1, 1, [], none))

/-- Modelled from the spec: the reserved-bandwidth-too-high check of
master_model.py (not under src/) per validator check 2: interfaces whose
reserved_bandwidth exceeds capacity times the reservable fraction. -/
def int_res_bw_too_high (m : Model) : List (String × String) :=
  (m.interface_objects.filter (fun i =>
    !(qle i.reserved_bandwidth (qdiv100 (qmul i.capacity i.percent_reservable_bandwidth))))).map
    Interface.key

/-- Reserved bandwidth the routed LSPs claim on the Interface with key k. -/
def lsp_reserved_sum (m : Model) (k : String × String) : ℚ :=
  (m.rsvp_lsp_objects.filter (fun l =>
    match l.path with
    | LspPath.routed ints => ints.contains k
    | LspPath.unrouted => false)).foldl (fun s l => qadd s l.reserved_bandwidth) (q 0)

/-- Modelled from the spec: the reserved-bandwidth-sum check of
master_model.py per validator check 3: interfaces whose recorded
reserved_bandwidth differs from the sum reserved by the LSPs routed over
them. -/
def int_res_bw_sum_error (m : Model) : List (String × String) :=
  (m.interface_objects.filter (fun i =>
    !(decide (lsp_reserved_sum m i.key = i.reserved_bandwidth)))).map Interface.key

/-- Modelled from the spec: the duplicate-interface check of master_model.py
per validator check 4: (name, node) keys held by more than one Interface. -/
def duplicate_interface_keys (m : Model) : List (String × String) :=
  let ks := m.interface_objects.map Interface.key
  (ks.filter (fun k => 1 < ks.count k)).eraseDups

/-- Modelled from the spec: the circuit-capacity check of master_model.py per
validator check 5: circuits whose two interfaces report different
capacities. -/
def mismatched_capacity_circuits (m : Model) :
    List ((String × String) × (String × String)) :=
  m.circuit_objects.filter (fun c =>
    match findIntfByKey m c.1, findIntfByKey m c.2 with
    | some a, some b => !(decide (a.capacity = b.capacity))
    | _, _ => false)

/-- Model.multiple_links_between_nodes: hyphen-joined endpoint names,
duplicates collected and sorted when the list has repeats. -/
def multiple_links_between_nodes (m : Model) : List String :=
  let connected_nodes_list :=
    m.interface_objects.map (fun i => i.node_name ++ "-" ++ i.remote_node_name)
  if connected_nodes_list.length ≠ connected_nodes_list.eraseDups.length then
    (connected_nodes_list.filter (fun c => 1 < connected_nodes_list.count c)).mergeSort
      (fun a b => a ≤ b)
  else []

/-- One SRLG of Model.validate_srlg_nodes: for each member Node that does not
list the SRLG, append the SRLG name to the node entry when the entry already
exists; the KeyError handler of the source initialises a missing entry to the
EMPTY list without appending the name (so the first offending SRLG of a node
is never recorded). -/
def srlg_errors_step (m : Model) (errs : List (String × List String)) (s : SRLG) :
    List (String × List String) :=
  let offenders := s.node_objects.filter (fun nn =>
    match get_node_object m nn with
    | some node => !(node.srlgs.contains s.name)
    | none => false)
  offenders.foldl (fun es nn =>
    if es.any (fun p => p.1 == nn) then
      es.map (fun p => if p.1 == nn then (p.1, p.2 ++ [s.name]) else p)
    else es ++ [(nn, [])]) errs

/-- Model.validate_srlg_nodes: node names mapped to SRLG-name lists collected
as srlg_errors_step describes (member Node objects are held by name and
resolved through the model arena; a name absent from the model is skipped). -/
def validate_srlg_nodes (m : Model) : List (String × List String) :=
  m.srlg_objects.foldl (srlg_errors_step m) []

/-- The error_data list of Model.validate_model, in the append order of the
source; the ints_w_no_remote_int entry of the source is dead with
return_exception=True (the circuit builder raises instead of returning the
dict), so it never appears. -/
def error_data (m : Model) : List VErr :=
  (if (int_res_bw_too_high m).isEmpty then []
   else [VErr.int_res_bw_too_high (int_res_bw_too_high m)])
  ++ (if (int_res_bw_sum_error m).isEmpty then []
      else [VErr.int_res_bw_sum_error (int_res_bw_sum_error m)])
  ++ (if (duplicate_interface_keys m).isEmpty then []
      else [VErr.duplicate_interfaces_on_node (duplicate_interface_keys m)])
  ++ (if (mismatched_capacity_circuits m).isEmpty then []
      else [VErr.circuits_with_mismatched_interface_capacity (mismatched_capacity_circuits m)])
  ++ (if (multiple_links_between_nodes m).isEmpty then []
      else [VErr.multiple_links_between_nodes (multiple_links_between_nodes m)])
  ++ (if (validate_srlg_nodes m).isEmpty then []
      else [VErr.srlg_errors (validate_srlg_nodes m)])
  ++ (if m.node_objects.length ≠ (m.node_objects.map Node.name).eraseDups.length
      then [VErr.duplicate_node_names m.node_objects.length
              (m.node_objects.map Node.name).eraseDups.length]
      else [])

/-- Error-aggregation tail of Model.validate_model: propagate the circuit
exception, else raise one exception carrying the whole error_data list when
it is non-empty, else return the model. -/
def validate_model_finish (res : Model × Option ModelError) : Model × Option ModelError :=
  match res with
  | (m1, some e) => (m1, some e)
  | (m1, none) =>
    if (error_data m1).isEmpty then (m1, none)
    else (m1, some (ModelError.validationFailed (error_data m1)))

/-- Model.validate_model: circuit creation first (which raises on unmatched
interfaces before any other check runs), then the collected error_data list;
raise one exception carrying the whole list when it is non-empty, otherwise
return the model. -/
def validate_model (m : Model) : Model × Option ModelError :=
  validate_model_finish (make_circuits m)

/-- Model.unfail_interface: interface and remote lookup, then the two node
failed checks (short-circuited as the Python and is); when both nodes are up,
unfail both interfaces, zero both reserved_bandwidth values and validate;
otherwise leave everything untouched and raise only when raise_exception. -/
def unfail_interface (m : Model) (interface_name node_name : String)
    (raise_exception : Bool) : Model × Option ModelError :=
  match get_interface_object m interface_name node_name with
  | Except.error e => (m, some e)
  | Except.ok i =>
    match get_remote_interface m i with
    | none => (m, some ModelError.attributeError)
    | some r =>
      match get_node_object m i.node_name with
      | none => (m, some ModelError.nodeNotFound)
      | some nl =>
        if nl.failed then
          if raise_exception then (m, some ModelError.blockedUnfail) else (m, none)
        else
          match get_node_object m r.node_name with
          | none => (m, some ModelError.nodeNotFound)
          | some nr =>
            if nr.failed then
              if raise_exception then (m, some ModelError.blockedUnfail) else (m, none)
            else
              let m1 := updateInterface m r.key
                (fun j => { j with failed := false, reserved_bandwidth := q 0 })
              let m2 := updateInterface m1 i.key
                (fun j => { j with failed := false, reserved_bandwidth := q 0 })
              validate_model m2

/-- Modelled from the spec: Node.interfaces of the missing node.py returns
the interfaces owned by the node (interfaces reference their owning node). -/
def get_node_interfaces (m : Model) (node_name : String) : List Interface :=
  m.interface_objects.filter (fun i => i.node_name == node_name)

/-- Model.fail_node: fail each owned interface (cascading to the remote
pairs), then set the failed property of the node. -/
def fail_node (m : Model) (node_name : String) : Model × Option ModelError :=
  let keys := (get_node_interfaces m node_name).map Interface.key
  match keys.foldl (fun st k =>
      match st with
      | (m2, some e) => (m2, some e)
      | (m2, none) => fail_interface m2 k.1 k.2) (m, none) with
  | (m2, some e) => (m2, some e)
  | (m2, none) =>
    match get_node_object m2 node_name with
    | none => (m2, some ModelError.nodeNotFound)
    | some _ => (updateNode m2 node_name (fun n => { n with failed := true }), none)

/-- Model.unfail_node: unfail the node, then for each owned interface whose
remote node is up, unfail it and its remote pair (both with
raise_exception=False; interface objects are re-read by key because the
validation inside a successful unfail renumbers circuit ids). -/
def unfail_node (m : Model) (node_name : String) : Model × Option ModelError :=
  match get_node_object m node_name with
  | none => (m, some ModelError.nodeNotFound)
  | some _ =>
    let m0 := updateNode m node_name (fun n => { n with failed := false })
    let keys := (get_node_interfaces m0 node_name).map Interface.key
    keys.foldl (fun st k =>
      match st with
      | (m2, some e) => (m2, some e)
      | (m2, none) =>
        match findIntfByKey m2 k with
        | none => (m2, some ModelError.interfaceNotFound)
        | some intf =>
          match get_node_object m2 intf.remote_node_name with
          | none => (m2, some ModelError.attributeError)
          | some rn =>
            if rn.failed then (m2, none)
            else
              match unfail_interface m2 intf.name node_name false with
              | (m3, some e) => (m3, some e)
              | (m3, none) =>
                match findIntfByKey m3 k with
                | none => (m3, some ModelError.interfaceNotFound)
                | some intf2 =>
                  match get_remote_interface m3 intf2 with
                  | none => (m3, some ModelError.attributeError)
                  | some rint => unfail_interface m3 rint.name rint.node_name false) (m0, none)

/-- Model.get_srlg_object: the single SRLG with the name (there will only be
one); anything else raises (or yields None without raise_exception). -/
def get_srlg_object (m : Model) (srlg_name : String) : Option SRLG :=
  match m.srlg_objects.filter (fun s => s.name == srlg_name) with
  | [s] => some s
  | _ => none

/-- Is the error one a Python except-ModelException clause would catch?
(An AttributeError is not a ModelException.) -/
def isModelException : ModelError → Bool
  | ModelError.attributeError => false
  | _ => true

/-- Model.fail_srlg: fail every member Node; the following generator filters
the model interfaces on srlg_to_fail.interface_objects, an attribute the SRLG
class of srlg.py never defines, so evaluating it for the first model
interface raises AttributeError — the method only reaches its final line on
interface-less models.  That final line, srlg_to_fail.failed = True, writes a
dynamic attribute the class also never declares; the typed record cannot
carry it, and it is unreachable whenever the model has an interface. -/
def fail_srlg (m : Model) (srlg_name : String) : Model × Option ModelError :=
  match get_srlg_object m srlg_name with
  | none => (m, some ModelError.srlgNotFound)
  | some s =>
    let member_names :=
      (m.node_objects.filter (fun n => s.node_objects.contains n.name)).map Node.name
    match member_names.foldl (fun st nn =>
        match st with
        | (m2, some e) => (m2, some e)
        | (m2, none) => fail_node m2 nn) (m, none) with
    | (m2, some e) => (m2, some e)
    | (m2, none) =>
      if m2.interface_objects.isEmpty then (m2, none)
      else (m2, some ModelError.attributeError)

/-- Model.unfail_srlg: write the dynamic failed attribute (see fail_srlg),
unfail every member Node swallowing ModelException per member, then hit the
same undefined srlg.interface_objects attribute as fail_srlg whenever the
model has interfaces (the AttributeError is outside the try that only
catches ModelException). -/
def unfail_srlg (m : Model) (srlg_name : String) : Model × Option ModelError :=
  match get_srlg_object m srlg_name with
  | none => (m, some ModelError.srlgNotFound)
  | some s =>
    let member_names :=
      (m.node_objects.filter (fun n => s.node_objects.contains n.name)).map Node.name
    match member_names.foldl (fun st nn =>
        match st with
        | (m2, some e) => (m2, some e)
        | (m2, none) =>
          match unfail_node m2 nn with
          | (m3, some e) => if isModelException e then (m3, none) else (m3, some e)
          | (m3, none) => (m3, none)) (m, none) with
    | (m2, some e) => (m2, some e)
    | (m2, none) =>
      if m2.interface_objects.isEmpty then (m2, none)
      else (m2, some ModelError.attributeError)

/-- Model.add_srlg: reject a duplicate name, else add SRLG(srlg_name, self).
The source binds the Model itself to the circuit_objects parameter of the
srlg.py constructor (a type confusion) and node_objects keeps the default
empty set; the typed embedding records both member collections empty. -/
def add_srlg (m : Model) (srlg_name : String) : Model × Option ModelError :=
  if m.srlg_objects.any (fun s => s.name == srlg_name) then
    (m, some ModelError.srlgNotFound)
  else
    ({ m with srlg_objects := m.srlg_objects ++ [⟨srlg_name, [], []⟩] }, none)

/-- Interface (key) sequence of the current path of a routed LSP; the source
subscripts lsp.path, whose contract requires an already-routed LSP (an
Unrouted string would raise), so the unrouted case is outside the contract
and yields the empty list. -/
def lsp_path_interfaces (lsp : RSVP_LSP) : List (String × String) :=
  match lsp.path with
  | LspPath.routed ints => ints
  | LspPath.unrouted => []

/-- Reservable bandwidth with the reserved bandwidth of the LSP itself
credited back on the interfaces of its current path. -/
def effective_reservable_bw (lsp : RSVP_LSP) (i : Interface) : ℚ :=
  if (lsp_path_interfaces lsp).contains i.key then
    qadd i.reservable_bandwidth lsp.reserved_bandwidth
  else i.reservable_bandwidth

/-- Model._make_weighted_network_graph_routed_lsp: non-failed rsvp_enabled
interfaces whose effective reservable bandwidth (the reserved bandwidth of
the LSP being rerouted credited back on its own path) meets needed_bw, plus
every model Node as a vertex. -/
def make_weighted_network_graph_routed_lsp (m : Model) (lsp : RSVP_LSP)
    (needed_bw : ℚ) : DiGraph :=
  let eligible_interfaces :=
    (m.interface_objects.filter (fun i => !i.failed && i.rsvp_enabled)).filter
      (fun i => qle needed_bw (effective_reservable_bw lsp i))
  let edge_names :=
    eligible_interfaces.map (fun i => (i.node_name, i.remote_node_name, i.cost))
  let G := addWeightedEdgesFrom DiGraph.empty edge_names
  addNodesFrom G (m.node_objects.map Node.name)

/-- The state-reset prefix of Model.update_simulation, everything that runs
before the LSP-placement call into master_model.py (which is not under
src/): zero reserved_bandwidth and traffic on every interface, set every LSP
and every Demand to Unrouted (the parallel-LSP-group cache the source also
clears is a transient not carried by the embedded Model). -/
def update_simulation_reset (m : Model) : Model :=
  { m with
    interface_objects := m.interface_objects.map
      (fun i => { i with reserved_bandwidth := q 0, traffic := q 0 }),
    rsvp_lsp_objects := m.rsvp_lsp_objects.map
      (fun l => { l with path := LspPath.unrouted }),
    demand_objects := m.demand_objects.map
      (fun d => { d with path := DemandPath.unrouted }) }

/-- Observable state of an Interface for the failure/reservation claims: its
identity key, failed flag and reserved bandwidth (the fields the validation
pass never touches, unlike in_ckt and circuit_id which it renumbers). -/
def intfState (i : Interface) : (String × String) × Bool × ℚ :=
  (i.key, i.failed, i.reserved_bandwidth)

/-- Test fixture: an Interface with the given name, cost, capacity, endpoint
names, circuit id and failed flag; rsvp enabled, fully reservable, nothing
reserved. -/
def mkIntf (name : String) (cost cap : Nat) (node rnode : String)
    (cid : Nat) (failedFlag : Bool) : Interface :=
  { name := name, cost := cost, capacity := q cap, node_name := node,
    remote_node_name := rnode, circuit_id := some cid, rsvp_enabled := true,
    percent_reservable_bandwidth := q 100, failed := failedFlag,
    reserved_bandwidth := q 0, traffic := q 0, in_ckt := false }

/-- Test fixture: a non-failed Node in no SRLG. -/
def mkNode (n : String) : Node := ⟨n, false, []⟩

/-- Test fixture: the empty Model. -/
def emptyModel : Model := ⟨[], [], [], [], [], []⟩

/-- Fixture for the C1 counterexample: two parallel interfaces from A to B
with different costs, both edge-eligible. -/
def iC1a : Interface := mkIntf "A-to-B" 1 100 "A" "B" 1 false

def iC1b : Interface := mkIntf "A-to-B-2" 2 100 "A" "B" 2 false

def mC1 : Model := ⟨[iC1a, iC1b], [mkNode "A", mkNode "B"], [], [], [], []⟩

/-- Fixture for the C1 witness: one circuit between A and B plus the
edgeless node C. -/
def mC1w : Model :=
  ⟨[mkIntf "A-to-B" 4 100 "A" "B" 1 false, mkIntf "B-to-A" 4 100 "B" "A" 1 false],
   [mkNode "A", mkNode "B", mkNode "C"], [], [], [], []⟩

/-- Fixture for the C2 witness: the only circuit between A and D has both
interfaces failed, so the failure-filtered graph has no edges. -/
def mC2w : Model :=
  ⟨[mkIntf "A-to-D" 1 100 "A" "D" 1 true, mkIntf "D-to-A" 1 100 "D" "A" 1 true],
   [mkNode "A", mkNode "D"], [], [], [], []⟩

/-- Fixtures for the C3 witness: a failed circuit with stale reserved
bandwidth on both interfaces, both endpoint nodes up. -/
def iC3a : Interface := { mkIntf "A-to-B" 1 100 "A" "B" 1 true with reserved_bandwidth := q 5 }

def iC3b : Interface := { mkIntf "B-to-A" 1 100 "B" "A" 1 true with reserved_bandwidth := q 5 }

def mC3w : Model := ⟨[iC3a, iC3b], [mkNode "A", mkNode "B"], [], [], [], []⟩

/-- Fixtures for the C4 witness: one healthy circuit between A and B. -/
def iC4a : Interface := mkIntf "A-to-B" 1 100 "A" "B" 1 false

def iC4b : Interface := mkIntf "B-to-A" 1 100 "B" "A" 1 false

def mC4w : Model := ⟨[iC4a, iC4b], [mkNode "A", mkNode "B"], [], [], [], []⟩

/-- Fixtures for C5: an LSP routed over interface iC5a reserving 10 units;
iC5b is a parallel A-to-B interface with zero capacity (zero reservable
bandwidth) off the LSP path. -/
def iC5a : Interface := mkIntf "A-to-B" 1 100 "A" "B" 1 false

def iC5b : Interface := mkIntf "A-to-B-2" 1 0 "A" "B" 2 false

def lspC5 : RSVP_LSP :=
  ⟨"A", "B", "lsp1", LspPath.routed [("A-to-B", "A")], q 10⟩

def mC5 : Model := ⟨[iC5a, iC5b], [mkNode "A", mkNode "B"], [], [lspC5], [], []⟩

/-- Fixture for the C5 witness: only the on-path interface, so endpoint
pairs are pairwise distinct. -/
def mC5w : Model := ⟨[iC5a], [mkNode "A", mkNode "B"], [], [lspC5], [], []⟩

/-- Fixture for the C7 counterexample: an interface with no reverse pairing
(circuit creation raises) and a duplicated node name (a further violation
that the raised error does not carry). -/
def mC7 : Model :=
  ⟨[mkIntf "A-to-B" 5 100 "A" "B" 1 false],
   [mkNode "A", mkNode "A", mkNode "B"], [], [], [], []⟩

/-- Fixture for the C7 witness: a fully valid model. -/
def mC7w : Model :=
  ⟨[mkIntf "A-to-B" 4 100 "A" "B" 1 false, mkIntf "B-to-A" 4 100 "B" "A" 1 false],
   [mkNode "A", mkNode "B"], [], [], [], []⟩

/-- Fixture for C8: a model with one circuit, to which add_srlg adds the
SRLG grp1 through the source constructor call. -/
def mC8base : Model :=
  ⟨[mkIntf "A-to-B" 1 100 "A" "B" 1 false, mkIntf "B-to-A" 1 100 "B" "A" 1 false],
   [mkNode "A", mkNode "B"], [], [], [], []⟩

def mC8 : Model := (add_srlg mC8base "grp1").1

/-- Fixtures for C9: the SRLG S lists node N as a member, but N does not
list S in its own srlgs set. -/
def nC9 : Node := ⟨"N", false, []⟩

def sC9 : SRLG := ⟨"S", [], ["N"]⟩

def mC9 : Model := ⟨[], [nC9], [], [], [sC9], []⟩

theorem q_eq (n : Nat) : q n = (n : ℚ) := by
  simp [q, mkRat, Rat.normalize]

theorem q_zero : q 0 = 0 := by
  rw [q_eq]
  norm_num

theorem qle_iff (a b : ℚ) : qle a b = true ↔ a ≤ b := by
  rw [qle, decide_eq_true_eq]
  exact Rat.le_def.symm

theorem num_eq_mul_den (a : ℚ) : (a.num : ℚ) = a * (a.den : ℚ) := by
  have hd : ((a.den : ℚ)) ≠ 0 := by positivity
  exact (div_eq_iff hd).mp (Rat.num_div_den a)

theorem qadd_eq (a b : ℚ) : qadd a b = a + b := by
  have ha : ((a.den : ℚ)) ≠ 0 := by positivity
  have hb : ((b.den : ℚ)) ≠ 0 := by positivity
  rw [qadd, Rat.mkRat_eq_div]
  push_cast
  field_simp
  rw [num_eq_mul_den a, num_eq_mul_den b]
  ring

theorem qsub_eq (a b : ℚ) : qsub a b = a - b := by
  have ha : ((a.den : ℚ)) ≠ 0 := by positivity
  have hb : ((b.den : ℚ)) ≠ 0 := by positivity
  rw [qsub, Rat.mkRat_eq_div]
  push_cast
  field_simp
  rw [num_eq_mul_den a, num_eq_mul_den b]
  ring

theorem qmul_eq (a b : ℚ) : qmul a b = a * b := by
  have ha : ((a.den : ℚ)) ≠ 0 := by positivity
  have hb : ((b.den : ℚ)) ≠ 0 := by positivity
  rw [qmul, Rat.mkRat_eq_div]
  push_cast
  field_simp
  rw [num_eq_mul_den a, num_eq_mul_den b]
  ring

theorem qdiv100_eq (a : ℚ) : qdiv100 a = a / 100 := by
  have ha : ((a.den : ℚ)) ≠ 0 := by positivity
  rw [qdiv100, Rat.mkRat_eq_div]
  push_cast
  field_simp
  rw [num_eq_mul_den a]
  ring

/-- The embedded derived attribute agrees with the formula of the spec,
written with the field operations of the rationals. -/
theorem reservable_bandwidth_eq (i : Interface) :
    i.reservable_bandwidth
      = i.capacity * i.percent_reservable_bandwidth / 100 - i.reserved_bandwidth := by
  rw [Interface.reservable_bandwidth, qsub_eq, qdiv100_eq, qmul_eq]

theorem addNode_edges (g : DiGraph) (n : String) : (addNode g n).edges = g.edges := by
  rw [addNode]
  split <;> rfl

theorem addNodesFrom_edges (g : DiGraph) (ns : List String) :
    (addNodesFrom g ns).edges = g.edges := by
  induction ns generalizing g with
  | nil => rfl
  | cons n ns ih =>
    have hstep : addNodesFrom g (n :: ns) = addNodesFrom (addNode g n) ns := rfl
    rw [hstep, ih, addNode_edges]

theorem hasEdge_congr {g1 g2 : DiGraph} (h : g1.edges = g2.edges) (u v : String) :
    hasEdge g1 u v = hasEdge g2 u v := by
  rw [hasEdge, hasEdge, h]

theorem mem_nodes_addNode (g : DiGraph) (n x : String) (h : x ∈ g.nodes) :
    x ∈ (addNode g n).nodes := by
  rw [addNode]
  split
  · exact h
  · exact List.mem_append.2 (Or.inl h)

theorem self_mem_addNode (g : DiGraph) (n : String) : n ∈ (addNode g n).nodes := by
  rw [addNode]
  split
  · next hc => simpa using hc
  · exact List.mem_append.2 (Or.inr (List.mem_singleton.2 rfl))

theorem mem_addNodesFrom_of_mem_nodes (g : DiGraph) (ns : List String) (x : String)
    (h : x ∈ g.nodes) : x ∈ (addNodesFrom g ns).nodes := by
  induction ns generalizing g with
  | nil => exact h
  | cons n ns ih => exact ih (addNode g n) (mem_nodes_addNode g n x h)

theorem mem_addNodesFrom_of_mem_list (g : DiGraph) (ns : List String) (x : String)
    (h : x ∈ ns) : x ∈ (addNodesFrom g ns).nodes := by
  induction ns generalizing g with
  | nil => cases h
  | cons n ns ih =>
    rcases List.mem_cons.1 h with h1 | h2
    · subst h1
      exact mem_addNodesFrom_of_mem_nodes (addNode g x) ns x (self_mem_addNode g x)
    · exact ih (addNode g n) h2

theorem addWeightedEdge_edges_of_fresh (g : DiGraph) (u v : String) (w : Nat)
    (h : hasEdge g u v = false) :
    (addWeightedEdge g u v w).edges = g.edges ++ [(u, v, w)] := by
  have he : (addNode (addNode g u) v).edges = g.edges := by
    rw [addNode_edges, addNode_edges]
  have hh : hasEdge (addNode (addNode g u) v) u v = false := by
    rw [hasEdge_congr he, h]
  simp only [addWeightedEdge]
  split
  · next hcond => rw [hh] at hcond; cases hcond
  · exact by simp [he]

theorem hasEdge_of_edges_append {g g2 : DiGraph} {l : List (String × String × Nat)}
    (h : g2.edges = g.edges ++ l) (a b : String) :
    hasEdge g2 a b = (hasEdge g a b || l.any (fun e => e.1 == a && e.2.1 == b)) := by
  rw [hasEdge, hasEdge, h, List.any_append]

theorem addWeightedEdgesFrom_edges (es : List (String × String × Nat)) :
    ∀ g : DiGraph, (es.map (fun e => (e.1, e.2.1))).Nodup →
      (∀ e ∈ es, hasEdge g e.1 e.2.1 = false) →
      (addWeightedEdgesFrom g es).edges = g.edges ++ es := by
  induction es with
  | nil => intro g _ _; simp [addWeightedEdgesFrom]
  | cons e rest ih =>
    intro g hnd hfresh
    have h0 : hasEdge g e.1 e.2.1 = false := hfresh e (List.mem_cons_self e rest)
    have hg : (addWeightedEdge g e.1 e.2.1 e.2.2).edges = g.edges ++ [e] := by
      simpa using addWeightedEdge_edges_of_fresh g e.1 e.2.1 e.2.2 h0
    have hstep : addWeightedEdgesFrom g (e :: rest)
        = addWeightedEdgesFrom (addWeightedEdge g e.1 e.2.1 e.2.2) rest := rfl
    have hnd2 : (rest.map (fun e2 => (e2.1, e2.2.1))).Nodup := (List.nodup_cons.1 hnd).2
    have hne : (e.1, e.2.1) ∉ rest.map (fun e2 => (e2.1, e2.2.1)) := (List.nodup_cons.1 hnd).1
    have hfresh2 : ∀ e2 ∈ rest, hasEdge (addWeightedEdge g e.1 e.2.1 e.2.2) e2.1 e2.2.1 = false := by
      intro e2 he2
      rw [hasEdge_of_edges_append hg]
      have hb : hasEdge g e2.1 e2.2.1 = false := hfresh e2 (List.mem_cons_of_mem e he2)
      have hne2 : ¬(e.1 = e2.1 ∧ e.2.1 = e2.2.1) := by
        intro hcontra
        exact hne (by
          have : (e.1, e.2.1) = (e2.1, e2.2.1) := by
            rw [hcontra.1, hcontra.2]
          rw [this]
          exact List.mem_map_of_mem _ he2)
      rw [hb, Bool.false_or, List.any_cons, List.any_nil, Bool.or_false, Bool.eq_false_iff]
      intro hcontra2
      simp only [Bool.and_eq_true, beq_iff_eq] at hcontra2
      exact hne2 hcontra2
    rw [hstep, ih _ hnd2 hfresh2, hg, List.append_assoc, List.singleton_append]

theorem builder_interfaces_eq (m : Model) (incf : Bool) (bw : ℚ) (rsvp : Bool) :
    (if rsvp then
        (if incf then m.interface_objects.filter (fun i => qle bw i.reservable_bandwidth)
         else m.interface_objects.filter
            (fun i => !i.failed && qle bw i.reservable_bandwidth)).filter
          (fun i => i.rsvp_enabled)
      else
        (if incf then m.interface_objects.filter (fun i => qle bw i.reservable_bandwidth)
         else m.interface_objects.filter
            (fun i => !i.failed && qle bw i.reservable_bandwidth)))
      = m.interface_objects.filter (graphEligible incf bw rsvp) := by
  cases incf <;> cases rsvp <;>
    simp only [Bool.false_eq_true, eq_self_iff_true, if_true, if_false, List.filter_filter] <;>
    exact List.filter_congr (fun a _ => by
      simp only [graphEligible]
      cases ha : a.failed <;> cases hb : a.rsvp_enabled <;>
        cases hc : qle bw a.reservable_bandwidth <;> rfl)

theorem builder_edges (m : Model) (incf : Bool) (bw : ℚ) (rsvp : Bool)
    (h : (m.interface_objects.map (fun i => (i.node_name, i.remote_node_name))).Nodup) :
    (make_weighted_network_graph m incf bw rsvp).edges
      = (m.interface_objects.filter (graphEligible incf bw rsvp)).map
          (fun i => (i.node_name, i.remote_node_name, i.cost)) := by
  simp only [make_weighted_network_graph]
  rw [addNodesFrom_edges, builder_interfaces_eq m incf bw rsvp]
  set L := m.interface_objects.filter (graphEligible incf bw rsvp) with hL
  have hsub : (L.map (fun i => (i.node_name, i.remote_node_name))).Sublist
      (m.interface_objects.map (fun i => (i.node_name, i.remote_node_name))) :=
    (List.filter_sublist m.interface_objects).map _
  have hnd : ((L.map (fun i => (i.node_name, i.remote_node_name, i.cost))).map
      (fun e => (e.1, e.2.1))).Nodup := by
    rw [List.map_map]
    exact hsub.nodup h
  rw [addWeightedEdgesFrom_edges _ DiGraph.empty hnd (fun e _ => rfl)]
  rfl

theorem builder_nodes (m : Model) (incf : Bool) (bw : ℚ) (rsvp : Bool) :
    ∀ n ∈ m.node_objects, n.name ∈ (make_weighted_network_graph m incf bw rsvp).nodes := by
  intro n hn
  simp only [make_weighted_network_graph]
  exact mem_addNodesFrom_of_mem_list _ _ _ (List.mem_map_of_mem Node.name hn)

/-- Claim C1, counterexample: with two parallel edge-eligible interfaces
from A to B (costs 1 and 2) the graph builder keeps only the last-written
weight, so no edge carries the first interface's cost — the claim that the
edge set contains an edge with weight equal to the cost of EVERY passing
Interface fails on this Model. -/
theorem C1_graph_builder_counterexample :
    iC1a ∈ mC1.interface_objects ∧ graphEligible false 0 false iC1a = true ∧
      ("A", "B", iC1a.cost) ∉ (make_weighted_network_graph mC1 false 0 false).edges := by
  decide

/-- Claim C1, amended: provided no two Interfaces of the Model share the
same (owning node, remote node) pair — the single-link invariant the Model
class documents — the edge set of the built graph is exactly one edge
(owning node, remote node, weight = cost) per Interface that is not failed
(unless include_failed), has reservable_bandwidth at least needed_bandwidth,
and is rsvp_enabled when rsvp_only; and the vertex set contains the name of
every Node of the model, edgeless ones included. -/
theorem C1_graph_builder_amended (m : Model) (include_failed : Bool)
    (needed_bw : ℚ) (rsvp_only : Bool)
    (h : (m.interface_objects.map (fun i => (i.node_name, i.remote_node_name))).Nodup) :
    (make_weighted_network_graph m include_failed needed_bw rsvp_only).edges
      = (m.interface_objects.filter (graphEligible include_failed needed_bw rsvp_only)).map
          (fun i => (i.node_name, i.remote_node_name, i.cost))
    ∧ ∀ n ∈ m.node_objects,
        n.name ∈ (make_weighted_network_graph m include_failed needed_bw rsvp_only).nodes :=
  ⟨builder_edges m include_failed needed_bw rsvp_only h,
   builder_nodes m include_failed needed_bw rsvp_only⟩

/-- Witness for the amended C1 on a concrete model: a circuit between A and
B plus the edgeless node C. -/
theorem C1_graph_builder_amended_witness :
    (make_weighted_network_graph mC1w false 0 false).edges
        = [("A", "B", 4), ("B", "A", 4)]
      ∧ "C" ∈ (make_weighted_network_graph mC1w false 0 false).nodes := by
  have H := C1_graph_builder_amended mC1w false 0 false (by decide)
  exact ⟨H.1.trans (by decide), H.2 (mkNode "C") (by decide)⟩

theorem hasEdge_of_mem_successors {g : DiGraph} {u v : String}
    (h : v ∈ successors g u) : hasEdge g u v = true := by
  rw [successors] at h
  obtain ⟨e, he, hv⟩ := List.mem_map.1 h
  obtain ⟨hmem, hu⟩ := List.mem_filter.1 he
  rw [hasEdge, List.any_eq_true]
  refine ⟨e, hmem, ?_⟩
  rw [Bool.and_eq_true]
  exact ⟨hu, beq_iff_eq.2 hv⟩

theorem reach_of_mem_simplePathsAux (g : DiGraph) (dst : String) :
    ∀ (fuel : Nat) (u : String) (visited : List String) (p : List String),
      p ∈ simplePathsAux g dst fuel u visited → Reach g u dst := by
  intro fuel
  induction fuel with
  | zero => intro u vis p hp; simp [simplePathsAux] at hp
  | succ n ih =>
    intro u vis p hp
    rw [simplePathsAux] at hp
    by_cases hud : (u == dst) = true
    · have : u = dst := beq_iff_eq.1 hud
      subst this
      exact Reach.refl u
    · rw [if_neg hud] at hp
      obtain ⟨v, hv, hp2⟩ := List.mem_flatMap.1 hp
      obtain ⟨p2, hp3, rfl⟩ := List.mem_map.1 hp2
      have hvm : v ∈ successors g u := (List.mem_filter.1 hv).1
      exact Reach.step (hasEdge_of_mem_successors hvm) (ih v (u :: vis) p2 hp3)

theorem simplePaths_eq_nil_of_not_reach {g : DiGraph} {src dst : String}
    (h : ¬ Reach g src dst) : simplePaths g src dst = [] := by
  rw [simplePaths]
  refine List.eq_nil_iff_forall_not_mem.2 (fun p hp => h ?_)
  exact reach_of_mem_simplePathsAux g dst _ src [] p hp

theorem not_reach_of_edges_nil {g : DiGraph} (h : g.edges = []) {u v : String}
    (hne : u ≠ v) : ¬ Reach g u v := by
  intro hr
  cases hr with
  | refl => exact hne rfl
  | step he _ =>
    rw [hasEdge, h] at he
    simp at he

/-- Claim C2: whenever no path exists from source to destination in the
failure- and bandwidth-filtered graph (disconnected endpoints included),
get_shortest_path returns the dict with an empty path list and null cost —
the embedded function is total, so no exception escapes. -/
theorem C2_get_shortest_path_no_path (m : Model) (src dst : String) (needed_bw : ℚ)
    (h : ¬ Reach (make_weighted_network_graph m false needed_bw false) src dst) :
    get_shortest_path m src dst needed_bw = { path := [], cost := none } := by
  have hnil : simplePaths (make_weighted_network_graph m false needed_bw false) src dst = [] :=
    simplePaths_eq_nil_of_not_reach h
  simp only [get_shortest_path, allShortestPaths, hnil]
  rfl

/-- Witness for C2: with every Interface of the only A-D circuit failed, the
query returns the empty path list and null cost. -/
theorem C2_get_shortest_path_no_path_witness :
    get_shortest_path mC2w "A" "D" 0 = { path := [], cost := none } :=
  C2_get_shortest_path_no_path mC2w "A" "D" 0
    (not_reach_of_edges_nil (by decide) (by decide))

/-- Claim C10: when no Interface joins the (local, remote) node pair,
get_interface_object_from_nodes returns the None sentinel instead of
raising, and a path hop through that pair resolved by
_convert_nx_path_to_model_path yields a None entry in the returned path. -/
theorem C10_get_interface_from_nodes_none (m : Model) (local_name remote_name : String)
    (h : ∀ i ∈ m.interface_objects,
      ¬(i.node_name = local_name ∧ i.remote_node_name = remote_name)) :
    get_interface_object_from_nodes m local_name remote_name = none
      ∧ none ∈ convert_nx_path_to_model_path m [local_name, remote_name] := by
  have h1 : get_interface_object_from_nodes m local_name remote_name = none := by
    rw [get_interface_object_from_nodes]
    refine List.find?_eq_none.2 (fun i hi => ?_)
    intro hcontra
    rw [Bool.and_eq_true, beq_iff_eq, beq_iff_eq] at hcontra
    exact h i hi hcontra
  refine ⟨h1, ?_⟩
  by_cases hlr : local_name = remote_name
  · subst hlr
    simp [convert_nx_path_to_model_path, List.indexOf, List.findIdx_cons, h1]
  · simp [convert_nx_path_to_model_path, List.indexOf, List.findIdx_cons, h1, hlr]

/-- Witness for C10 on the empty model. -/
theorem C10_get_interface_from_nodes_none_witness :
    get_interface_object_from_nodes emptyModel "X" "Y" = none
      ∧ none ∈ convert_nx_path_to_model_path emptyModel ["X", "Y"] :=
  C10_get_interface_from_nodes_none emptyModel "X" "Y" (fun _ hi => nomatch hi)

/-- Claim C6: the state-reset prefix of update_simulation leaves every
Interface with zero reserved_bandwidth and zero traffic, every LSP Unrouted
and every Demand Unrouted, before LSP placement begins. -/
theorem C6_update_simulation_reset_state (m : Model) :
    ((update_simulation_reset m).interface_objects.all
        (fun i => decide (i.reserved_bandwidth = 0) && decide (i.traffic = 0))) = true
      ∧ ((update_simulation_reset m).rsvp_lsp_objects.all
          (fun l => decide (l.path = LspPath.unrouted))) = true
      ∧ ((update_simulation_reset m).demand_objects.all
          (fun d => decide (d.path = DemandPath.unrouted))) = true := by
  refine ⟨?_, ?_, ?_⟩ <;>
    · simp only [update_simulation_reset, List.all_map]
      refine List.all_eq_true.2 (fun x hx => ?_)
      simp [q_zero]

theorem get_interface_object_ok {m : Model} {iname inode : String} {i : Interface}
    (hi : get_interface_object m iname inode = Except.ok i) :
    i ∈ m.interface_objects ∧ i.name = iname ∧ i.node_name = inode := by
  rw [get_interface_object] at hi
  split at hi
  · cases hno : get_node_object m inode with
    | none => rw [hno] at hi; cases hi
    | some nd =>
      rw [hno] at hi
      cases hfind : m.interface_objects.find?
          (fun i2 => i2.node_name == inode && i2.name == iname) with
      | none => rw [hfind] at hi; cases hi
      | some i0 =>
        rw [hfind] at hi
        injection hi with hi0
        subst hi0
        have hm := List.mem_of_find?_eq_some hfind
        have hp := List.find?_some hfind
        rw [Bool.and_eq_true, beq_iff_eq, beq_iff_eq] at hp
        exact ⟨hm, hp.2, hp.1⟩
  · cases hi

theorem get_remote_interface_mem {m : Model} {i r : Interface}
    (hr : get_remote_interface m i = some r) : r ∈ m.interface_objects :=
  List.mem_of_find?_eq_some hr

theorem any_pointwise {α : Type} (l : List α) (p p2 : α → Bool) (h : ∀ a, p a = p2 a) :
    l.any p = l.any p2 := by
  induction l with
  | nil => rfl
  | cons x xs ih => simp only [List.any_cons, h x, ih]

theorem any_key_updateInterface (m : Model) (k : String × String)
    (f : Interface → Interface) (hf : ∀ j, (f j).key = j.key) (k2 : String × String) :
    ((updateInterface m k f).interface_objects.any (fun x => decide (x.key = k2)))
      = (m.interface_objects.any (fun x => decide (x.key = k2))) := by
  rw [updateInterface]
  show ((m.interface_objects.map fun j => if j.key = k then f j else j).any
      (fun x => decide (x.key = k2))) = _
  rw [List.any_map]
  refine any_pointwise m.interface_objects _ _ (fun j => ?_)
  by_cases hj : j.key = k
  · simp only [Function.comp_apply, if_pos hj, hf j]
  · simp only [Function.comp_apply, if_neg hj]

/-- Claim C4: after fail_interface on an Interface with a paired remote
interface, every entry carrying either key is failed, both keys are still
present, and no exception is raised. -/
theorem C4_fail_interface_symmetry (m : Model) (iname inode : String) (i r : Interface)
    (hnd : (m.interface_objects.map Interface.key).Nodup)
    (hi : get_interface_object m iname inode = Except.ok i)
    (hr : get_remote_interface m i = some r) :
    (((fail_interface m iname inode).1.interface_objects.filter
        (fun x => decide (x.key = i.key) || decide (x.key = r.key))).all
      (fun x => x.failed)) = true
    ∧ ((fail_interface m iname inode).1.interface_objects.any
        (fun x => decide (x.key = i.key))) = true
    ∧ ((fail_interface m iname inode).1.interface_objects.any
        (fun x => decide (x.key = r.key))) = true
    ∧ (fail_interface m iname inode).2 = none := by
  have hres : fail_interface m iname inode
      = (updateInterface (updateInterface m r.key (fun j => { j with failed := true }))
          i.key (fun j => { j with failed := true }), none) := by
    simp only [fail_interface, hi, hr]
  rw [hres]
  have hkey1 : ∀ j : Interface, (({ j with failed := true } : Interface)).key = j.key :=
    fun j => rfl
  refine ⟨?_, ?_, ?_, rfl⟩
  · refine List.all_eq_true.2 (fun x hx => ?_)
    have hx2 := (List.mem_filter.1 hx).1
    simp only [updateInterface, List.mem_map] at hx2
    obtain ⟨j1, hj1, hx3⟩ := hx2
    obtain ⟨j0, hj0, hj1def⟩ := hj1
    by_cases h2 : j1.key = i.key
    · rw [if_pos h2] at hx3
      rw [← hx3]
    · rw [if_neg h2] at hx3
      subst hx3
      by_cases h1 : j0.key = r.key
      · rw [if_pos h1] at hj1def
        rw [← hj1def]
      · rw [if_neg h1] at hj1def
        subst hj1def
        have hp := (List.mem_filter.1 hx).2
        rw [Bool.or_eq_true, decide_eq_true_eq, decide_eq_true_eq] at hp
        cases hp with
        | inl hcontra => exact absurd hcontra h2
        | inr hcontra => exact absurd hcontra h1
  · rw [any_key_updateInterface _ _ _ hkey1, any_key_updateInterface _ _ _ hkey1]
    exact List.any_eq_true.2 ⟨i, (get_interface_object_ok hi).1, decide_eq_true rfl⟩
  · rw [any_key_updateInterface _ _ _ hkey1, any_key_updateInterface _ _ _ hkey1]
    exact List.any_eq_true.2 ⟨r, get_remote_interface_mem hr, decide_eq_true rfl⟩

/-- Witness for C4: failing A-to-B on the healthy A-B circuit leaves both
directions failed. -/
theorem C4_fail_interface_symmetry_witness :
    (((fail_interface mC4w "A-to-B" "A").1.interface_objects.filter
        (fun x => decide (x.key = iC4a.key) || decide (x.key = iC4b.key))).all
      (fun x => x.failed)) = true
    ∧ ((fail_interface mC4w "A-to-B" "A").1.interface_objects.any
        (fun x => decide (x.key = iC4a.key))) = true
    ∧ ((fail_interface mC4w "A-to-B" "A").1.interface_objects.any
        (fun x => decide (x.key = iC4b.key))) = true
    ∧ (fail_interface mC4w "A-to-B" "A").2 = none :=
  C4_fail_interface_symmetry mC4w "A-to-B" "A" iC4a iC4b (by decide) (by rfl) (by rfl)

theorem map_pointwise {α β : Type} (l : List α) (f g : α → β) (h : ∀ a, f a = g a) :
    l.map f = l.map g := by
  induction l with
  | nil => rfl
  | cons x xs ih => simp only [List.map_cons, h x, ih]

theorem map_intfState_updateFirstIntf (l : List Interface) (p : Interface → Bool)
    (f : Interface → Interface) (hf : ∀ x, intfState (f x) = intfState x) :
    (updateFirstIntf l p f).map intfState = l.map intfState := by
  induction l with
  | nil => rfl
  | cons x xs ih =>
    rw [updateFirstIntf]
    by_cases hx : p x = true
    · rw [if_pos hx, List.map_cons, List.map_cons, hf x]
    · rw [if_neg hx, List.map_cons, List.map_cons, ih]

theorem make_circuits_step_state
    (st : Model × Nat × List ((String × String) × (String × String)) × Option ModelError)
    (e : String × String × Nat) :
    ((make_circuits_step st e).1).interface_objects.map intfState
      = (st.1).interface_objects.map intfState := by
  obtain ⟨m, cid, ckts, err⟩ := st
  cases err with
  | some e2 => rfl
  | none =>
    simp only [make_circuits_step]
    cases h1 : get_interface_object_from_nodes m e.1 e.2.1 <;>
      cases h2 : get_interface_object_from_nodes m e.2.1 e.1 <;>
        simp only [h1, h2]
    split
    · simp only [setFirstByNodes]
      rw [map_intfState_updateFirstIntf, map_intfState_updateFirstIntf]
      · exact fun x => rfl
      · exact fun x => rfl
    · rfl

theorem foldl_make_circuits_state (es : List (String × String × Nat)) :
    ∀ st, ((es.foldl make_circuits_step st).1).interface_objects.map intfState
      = (st.1).interface_objects.map intfState := by
  induction es with
  | nil => intro st; rfl
  | cons e rest ih =>
    intro st
    rw [List.foldl_cons, ih, make_circuits_step_state]

theorem make_circuits_finish_state (unmatched : List (String × String × Nat))
    (st : Model × Nat × List ((String × String) × (String × String)) × Option ModelError) :
    ((make_circuits_finish unmatched st).1).interface_objects
      = (st.1).interface_objects := by
  obtain ⟨m2, cid, ckts, err⟩ := st
  cases err with
  | some e => rfl
  | none =>
    simp only [make_circuits_finish]
    split <;> rfl

theorem make_circuits_state (m : Model) :
    ((make_circuits m).1).interface_objects.map intfState
      = m.interface_objects.map intfState := by
  simp only [make_circuits]
  rw [make_circuits_finish_state, foldl_make_circuits_state]
  show (m.interface_objects.map (fun i => { i with in_ckt := false })).map intfState
    = m.interface_objects.map intfState
  rw [List.map_map]
  exact map_pointwise _ _ _ (fun a => rfl)

theorem validate_model_finish_state (res : Model × Option ModelError) :
    (validate_model_finish res).1 = res.1 := by
  obtain ⟨m1, err⟩ := res
  cases err with
  | some e => rfl
  | none =>
    simp only [validate_model_finish]
    split <;> rfl

theorem validate_model_state (m : Model) :
    ((validate_model m).1).interface_objects.map intfState
      = m.interface_objects.map intfState := by
  rw [validate_model, validate_model_finish_state, make_circuits_state]

theorem all_map2 {α β : Type} (l : List α) (f : α → β) (p : β → Bool) :
    (l.map f).all p = l.all (fun a => p (f a)) := by
  induction l with
  | nil => rfl
  | cons x xs ih => simp only [List.map_cons, List.all_cons, ih]

theorem any_map2 {α β : Type} (l : List α) (f : α → β) (p : β → Bool) :
    (l.map f).any p = l.any (fun a => p (f a)) := by
  induction l with
  | nil => rfl
  | cons x xs ih => simp only [List.map_cons, List.any_cons, ih]

theorem all_filter_state (l1 l2 : List Interface)
    (hmap : l1.map intfState = l2.map intfState)
    (p r : (String × String) × Bool × ℚ → Bool) :
    (l1.filter (fun x => p (intfState x))).all (fun x => r (intfState x))
      = (l2.filter (fun x => p (intfState x))).all (fun x => r (intfState x)) := by
  have key : ∀ l : List Interface,
      (l.filter (fun x => p (intfState x))).all (fun x => r (intfState x))
        = ((l.map intfState).filter p).all r := by
    intro l
    rw [List.filter_map, all_map2]
    rfl
  rw [key, key, hmap]

theorem any_state (l1 l2 : List Interface)
    (hmap : l1.map intfState = l2.map intfState)
    (p : (String × String) × Bool × ℚ → Bool) :
    l1.any (fun x => p (intfState x)) = l2.any (fun x => p (intfState x)) := by
  have key : ∀ l : List Interface,
      l.any (fun x => p (intfState x)) = (l.map intfState).any p := by
    intro l
    rw [any_map2]
  rw [key, key, hmap]

theorem map_intfState_updateInterface_unfail (m : Model) (k : String × String) :
    ((updateInterface m k
        (fun j => { j with failed := false, reserved_bandwidth := q 0 })).interface_objects.map
      intfState)
      = (m.interface_objects.map intfState).map
          (fun t => if t.1 = k then (t.1, false, q 0) else t) := by
  rw [updateInterface]
  show ((m.interface_objects.map fun j => if j.key = k then
      ({ j with failed := false, reserved_bandwidth := q 0 } : Interface) else j).map intfState)
    = _
  rw [List.map_map, List.map_map]
  refine map_pointwise _ _ _ (fun j => ?_)
  by_cases hj : j.key = k
  · simp only [Function.comp_apply, if_pos hj]
    rw [if_pos (show (intfState j).1 = k from hj)]
    rfl
  · simp only [Function.comp_apply, if_neg hj]
    rw [if_neg (show ¬(intfState j).1 = k from hj)]

theorem all_filter_key_state (l1 l2 : List Interface)
    (hmap : l1.map intfState = l2.map intfState) (k1 k2 : String × String) :
    ((l1.filter (fun x => decide (x.key = k1) || decide (x.key = k2))).all
      (fun x => !x.failed && decide (x.reserved_bandwidth = 0)))
      = ((l2.filter (fun x => decide (x.key = k1) || decide (x.key = k2))).all
        (fun x => !x.failed && decide (x.reserved_bandwidth = 0))) :=
  all_filter_state l1 l2 hmap
    (fun t => decide (t.1 = k1) || decide (t.1 = k2))
    (fun t => !t.2.1 && decide (t.2.2 = 0))

theorem any_key_state (l1 l2 : List Interface)
    (hmap : l1.map intfState = l2.map intfState) (k : String × String) :
    (l1.any (fun x => decide (x.key = k))) = (l2.any (fun x => decide (x.key = k))) :=
  any_state l1 l2 hmap (fun t => decide (t.1 = k))

/-- Claim C3: unfail_interface sets failed=false and zeroes
reserved_bandwidth on the interface and its paired remote interface exactly
when both endpoint Nodes are up (the validation the source then runs leaves
those fields untouched); with a failed endpoint Node it leaves the model
unchanged, raising the blocked-unfail exception iff raise_exception is
set. -/
theorem C3_unfail_interface (m : Model) (iname inode : String) (raiseb : Bool)
    (i r : Interface) (nl nr : Node)
    (hnd : (m.interface_objects.map Interface.key).Nodup)
    (hi : get_interface_object m iname inode = Except.ok i)
    (hr : get_remote_interface m i = some r)
    (hnl : get_node_object m i.node_name = some nl)
    (hnr : get_node_object m r.node_name = some nr) :
    (nl.failed = false → nr.failed = false →
      (((unfail_interface m iname inode raiseb).1.interface_objects.filter
          (fun x => decide (x.key = i.key) || decide (x.key = r.key))).all
        (fun x => !x.failed && decide (x.reserved_bandwidth = 0))) = true
      ∧ ((unfail_interface m iname inode raiseb).1.interface_objects.any
          (fun x => decide (x.key = i.key))) = true
      ∧ ((unfail_interface m iname inode raiseb).1.interface_objects.any
          (fun x => decide (x.key = r.key))) = true)
    ∧ ((nl.failed = true ∨ nr.failed = true) →
      unfail_interface m iname inode raiseb
        = (m, if raiseb then some ModelError.blockedUnfail else none)) := by
  have hkey0 : ∀ j : Interface,
      (({ j with failed := false, reserved_bandwidth := q 0 } : Interface)).key = j.key :=
    fun j => rfl
  constructor
  · intro hnlf hnrf
    have hres : unfail_interface m iname inode raiseb
        = validate_model (updateInterface (updateInterface m r.key
            (fun j => { j with failed := false, reserved_bandwidth := q 0 })) i.key
            (fun j => { j with failed := false, reserved_bandwidth := q 0 })) := by
      simp only [unfail_interface, hi, hr, hnl, hnr, hnlf, hnrf, Bool.false_eq_true, if_false]
    rw [hres]
    have hstate := validate_model_state (updateInterface (updateInterface m r.key
      (fun j => { j with failed := false, reserved_bandwidth := q 0 })) i.key
      (fun j => { j with failed := false, reserved_bandwidth := q 0 }))
    refine ⟨?_, ?_, ?_⟩
    · rw [all_filter_key_state _ _ hstate]
      refine List.all_eq_true.2 (fun x hx => ?_)
      have hx2 := (List.mem_filter.1 hx).1
      simp only [updateInterface, List.mem_map] at hx2
      obtain ⟨j1, hj1, hx3⟩ := hx2
      obtain ⟨j0, hj0, hj1def⟩ := hj1
      by_cases h2 : j1.key = i.key
      · rw [if_pos h2] at hx3
        rw [← hx3]
        simp [q_zero]
      · rw [if_neg h2] at hx3
        subst hx3
        by_cases h1 : j0.key = r.key
        · rw [if_pos h1] at hj1def
          rw [← hj1def]
          simp [q_zero]
        · rw [if_neg h1] at hj1def
          subst hj1def
          have hp := (List.mem_filter.1 hx).2
          rw [Bool.or_eq_true, decide_eq_true_eq, decide_eq_true_eq] at hp
          cases hp with
          | inl hcontra => exact absurd hcontra h2
          | inr hcontra => exact absurd hcontra h1
    · rw [any_key_state _ _ hstate,
        any_key_updateInterface _ _ _ hkey0, any_key_updateInterface _ _ _ hkey0]
      exact List.any_eq_true.2 ⟨i, (get_interface_object_ok hi).1, decide_eq_true rfl⟩
    · rw [any_key_state _ _ hstate,
        any_key_updateInterface _ _ _ hkey0, any_key_updateInterface _ _ _ hkey0]
      exact List.any_eq_true.2 ⟨r, get_remote_interface_mem hr, decide_eq_true rfl⟩
  · intro hdisj
    cases hnl2 : nl.failed with
    | true =>
      have hres : unfail_interface m iname inode raiseb
          = if raiseb then (m, some ModelError.blockedUnfail) else (m, none) := by
        simp only [unfail_interface, hi, hr, hnl, hnl2, if_true]
      rw [hres]
      cases raiseb <;> rfl
    | false =>
      cases hnr2 : nr.failed with
      | true =>
        have hres : unfail_interface m iname inode raiseb
            = if raiseb then (m, some ModelError.blockedUnfail) else (m, none) := by
          simp only [unfail_interface, hi, hr, hnl, hnr, hnl2, hnr2,
            Bool.false_eq_true, if_false, if_true]
        rw [hres]
        cases raiseb <;> rfl
      | false =>
        cases hdisj with
        | inl hcontra => rw [hnl2] at hcontra; cases hcontra
        | inr hcontra => rw [hnr2] at hcontra; cases hcontra

/-- Witness for C3 on a concrete model: unfailing A-to-B of the failed A-B
circuit (both nodes up) unfails both directions and zeroes both
reservations. -/
theorem C3_unfail_interface_witness :
    (((unfail_interface mC3w "A-to-B" "A" false).1.interface_objects.filter
        (fun x => decide (x.key = iC3a.key) || decide (x.key = iC3b.key))).all
      (fun x => !x.failed && decide (x.reserved_bandwidth = 0))) = true
    ∧ ((unfail_interface mC3w "A-to-B" "A" false).1.interface_objects.any
        (fun x => decide (x.key = iC3a.key))) = true
    ∧ ((unfail_interface mC3w "A-to-B" "A" false).1.interface_objects.any
        (fun x => decide (x.key = iC3b.key))) = true :=
  (C3_unfail_interface mC3w "A-to-B" "A" false iC3a iC3b (mkNode "A") (mkNode "B")
    (by decide) (by rfl) (by rfl) (by rfl) (by rfl)).1 (by rfl) (by rfl)

theorem any_keypred_overwrite (l : List (String × String × Nat)) (u v : String)
    (w : Nat) (a b : String) :
    ((l.map (fun e => if e.1 == u && e.2.1 == v then (u, v, w) else e)).any
      (fun e => e.1 == a && e.2.1 == b))
      = (l.any (fun e => e.1 == a && e.2.1 == b)) := by
  rw [any_map2]
  refine any_pointwise _ _ _ (fun e => ?_)
  by_cases he : (e.1 == u && e.2.1 == v) = true
  · rw [if_pos he]
    rw [Bool.and_eq_true, beq_iff_eq, beq_iff_eq] at he
    rw [show ((u, v, w) : String × String × Nat).1 = u from rfl,
      show ((u, v, w) : String × String × Nat).2.1 = v from rfl, ← he.1, ← he.2]
  · rw [if_neg he]

theorem hasEdge_addWeightedEdge (g : DiGraph) (u v : String) (w : Nat) (a b : String) :
    hasEdge (addWeightedEdge g u v w) a b = true
      ↔ (hasEdge g a b = true ∨ (a = u ∧ b = v)) := by
  have he1 : (addNode (addNode g u) v).edges = g.edges := by
    rw [addNode_edges, addNode_edges]
  simp only [addWeightedEdge]
  split
  · next hcond =>
    rw [hasEdge_congr he1] at hcond
    have hlhs : hasEdge
        { addNode (addNode g u) v with
          edges := (addNode (addNode g u) v).edges.map
            (fun e => if e.1 == u && e.2.1 == v then (u, v, w) else e) } a b
        = hasEdge g a b := by
      rw [hasEdge, he1, any_keypred_overwrite, hasEdge]
    rw [hlhs]
    constructor
    · exact Or.inl
    · rintro (hor | ⟨ha, hb⟩)
      · exact hor
      · rw [ha, hb]
        exact hcond
  · next hcond =>
    have hlhs : hasEdge
        { addNode (addNode g u) v with
          edges := (addNode (addNode g u) v).edges ++ [(u, v, w)] } a b
        = (hasEdge g a b || ((u == a) && (v == b))) := by
      rw [hasEdge, he1, List.any_append, hasEdge, List.any_cons, List.any_nil, Bool.or_false]
    rw [hlhs, Bool.or_eq_true, Bool.and_eq_true, beq_iff_eq, beq_iff_eq]
    constructor
    · rintro (hor | ⟨ha, hb⟩)
      · exact Or.inl hor
      · exact Or.inr ⟨ha.symm, hb.symm⟩
    · rintro (hor | ⟨ha, hb⟩)
      · exact Or.inl hor
      · exact Or.inr ⟨ha.symm, hb.symm⟩

theorem hasEdge_addWeightedEdgesFrom (es : List (String × String × Nat)) :
    ∀ (g : DiGraph) (a b : String),
      hasEdge (addWeightedEdgesFrom g es) a b = true
        ↔ (hasEdge g a b = true ∨ ∃ w, (a, b, w) ∈ es) := by
  induction es with
  | nil =>
    intro g a b
    simp [addWeightedEdgesFrom]
  | cons e rest ih =>
    intro g a b
    have hstep : addWeightedEdgesFrom g (e :: rest)
        = addWeightedEdgesFrom (addWeightedEdge g e.1 e.2.1 e.2.2) rest := rfl
    rw [hstep, ih, hasEdge_addWeightedEdge]
    constructor
    · rintro ((hor | ⟨ha, hb⟩) | ⟨w, hw⟩)
      · exact Or.inl hor
      · refine Or.inr ⟨e.2.2, ?_⟩
        rw [ha, hb]
        exact List.mem_cons_self e rest
      · exact Or.inr ⟨w, List.mem_cons_of_mem e hw⟩
    · rintro (hor | ⟨w, hw⟩)
      · exact Or.inl (Or.inl hor)
      · rcases List.mem_cons.1 hw with hmem | hmem
        · exact Or.inl (Or.inr ⟨by rw [← hmem], by rw [← hmem]⟩)
        · exact Or.inr ⟨w, hmem⟩

theorem routed_lsp_hasEdge (m : Model) (lsp : RSVP_LSP) (bw : ℚ) (a b : String) :
    hasEdge (make_weighted_network_graph_routed_lsp m lsp bw) a b = true
      ↔ ∃ i ∈ m.interface_objects, i.failed = false ∧ i.rsvp_enabled = true
          ∧ qle bw (effective_reservable_bw lsp i) = true
          ∧ i.node_name = a ∧ i.remote_node_name = b := by
  simp only [make_weighted_network_graph_routed_lsp]
  rw [hasEdge_congr (addNodesFrom_edges _ _), hasEdge_addWeightedEdgesFrom]
  constructor
  · rintro (hor | ⟨w, hw⟩)
    · rw [hasEdge] at hor
      simp [DiGraph.empty] at hor
    · obtain ⟨i, hi, heq⟩ := List.mem_map.1 hw
      obtain ⟨hi2, hq⟩ := List.mem_filter.1 hi
      obtain ⟨hi3, hfr⟩ := List.mem_filter.1 hi2
      rw [Bool.and_eq_true, Bool.not_eq_eq_eq_not, Bool.not_true] at hfr
      refine ⟨i, hi3, hfr.1, hfr.2, hq, ?_, ?_⟩
      · exact congrArg (fun t => t.1) heq
      · exact congrArg (fun t => t.2.1) heq
  · rintro ⟨i, hi, hf, hrs, hq, ha, hb⟩
    refine Or.inr ⟨i.cost, ?_⟩
    rw [← ha, ← hb]
    refine List.mem_map_of_mem _ (List.mem_filter.2 ⟨List.mem_filter.2 ⟨hi, ?_⟩, hq⟩)
    rw [Bool.and_eq_true, Bool.not_eq_eq_eq_not, Bool.not_true]
    exact ⟨hf, hrs⟩

/-- Claim C5, counterexample: with a parallel zero-reservable interface from
A to B off the LSP path, the rerouting graph still holds the (A,B) edge
(contributed by the on-path interface), although the parallel interface is
non-failed, rsvp-enabled and fails the needed-bandwidth comparison — the
claimed per-Interface iff fails on this Model. -/
theorem C5_routed_lsp_graph_counterexample :
    iC5b ∈ mC5.interface_objects ∧ iC5b.failed = false ∧ iC5b.rsvp_enabled = true
    ∧ hasEdge (make_weighted_network_graph_routed_lsp mC5 lspC5 (q 10)) iC5b.node_name
        iC5b.remote_node_name = true
    ∧ ¬ (q 10 ≤ effective_reservable_bw lspC5 iC5b) := by
  refine ⟨by decide, by decide, by decide, by decide, ?_⟩
  rw [← qle_iff]
  decide

/-- Claim C5, amended: provided no two Interfaces share the same (owning
node, remote node) pair, the rerouting graph builder includes the edge of a
non-failed rsvp_enabled Interface iff its reservable_bandwidth — increased
by the reserved_bandwidth of the LSP being rerouted exactly when the
Interface lies on that LSP's current path — is at least needed_bw. -/
theorem C5_routed_lsp_graph_amended (m : Model) (lsp : RSVP_LSP) (needed_bw : ℚ)
    (h : (m.interface_objects.map (fun i => (i.node_name, i.remote_node_name))).Nodup) :
    ∀ i ∈ m.interface_objects, i.failed = false → i.rsvp_enabled = true →
      (hasEdge (make_weighted_network_graph_routed_lsp m lsp needed_bw)
          i.node_name i.remote_node_name = true
        ↔ needed_bw ≤ effective_reservable_bw lsp i) := by
  intro i hi hf hrs
  rw [routed_lsp_hasEdge]
  constructor
  · rintro ⟨j, hj, hjf, hjr, hjq, hja, hjb⟩
    have hji : j = i := List.inj_on_of_nodup_map h hj hi (by rw [hja, hjb])
    subst hji
    exact (qle_iff _ _).1 hjq
  · intro hq
    exact ⟨i, hi, hf, hrs, (qle_iff _ _).2 hq, rfl, rfl⟩

/-- Witness for the amended C5 on a concrete model with a routed LSP. -/
theorem C5_routed_lsp_graph_amended_witness :
    hasEdge (make_weighted_network_graph_routed_lsp mC5w lspC5 (q 10)) iC5a.node_name
        iC5a.remote_node_name = true
      ↔ q 10 ≤ effective_reservable_bw lspC5 iC5a :=
  C5_routed_lsp_graph_amended mC5w lspC5 (q 10) (by decide) iC5a (by decide) rfl rfl

theorem isEmpty_false_of_ne_nil {α : Type} {l : List α} (h : l ≠ []) : l.isEmpty = false := by
  cases l with
  | nil => exact absurd rfl h
  | cons a as => rfl

theorem mem_if_entry (x : VErr) (b : Bool) (hb : b = false) :
    x ∈ (if b then ([] : List VErr) else [x]) := by
  rw [hb]
  simp

theorem error_data_mem_bw_high (mm : Model) (hne : int_res_bw_too_high mm ≠ []) :
    VErr.int_res_bw_too_high (int_res_bw_too_high mm) ∈ error_data mm := by
  simp only [error_data]
  exact List.mem_append.2 (Or.inl (List.mem_append.2 (Or.inl (List.mem_append.2 (Or.inl
    (List.mem_append.2 (Or.inl (List.mem_append.2 (Or.inl (List.mem_append.2 (Or.inl
      (mem_if_entry _ _ (isEmpty_false_of_ne_nil hne)))))))))))))

theorem error_data_mem_bw_sum (mm : Model) (hne : int_res_bw_sum_error mm ≠ []) :
    VErr.int_res_bw_sum_error (int_res_bw_sum_error mm) ∈ error_data mm := by
  simp only [error_data]
  exact List.mem_append.2 (Or.inl (List.mem_append.2 (Or.inl (List.mem_append.2 (Or.inl
    (List.mem_append.2 (Or.inl (List.mem_append.2 (Or.inl (List.mem_append.2 (Or.inr
      (mem_if_entry _ _ (isEmpty_false_of_ne_nil hne)))))))))))))

theorem error_data_mem_dup_intf (mm : Model) (hne : duplicate_interface_keys mm ≠ []) :
    VErr.duplicate_interfaces_on_node (duplicate_interface_keys mm) ∈ error_data mm := by
  simp only [error_data]
  exact List.mem_append.2 (Or.inl (List.mem_append.2 (Or.inl (List.mem_append.2 (Or.inl
    (List.mem_append.2 (Or.inl (List.mem_append.2 (Or.inr
      (mem_if_entry _ _ (isEmpty_false_of_ne_nil hne)))))))))))

theorem error_data_mem_capacity (mm : Model) (hne : mismatched_capacity_circuits mm ≠ []) :
    VErr.circuits_with_mismatched_interface_capacity (mismatched_capacity_circuits mm)
      ∈ error_data mm := by
  simp only [error_data]
  exact List.mem_append.2 (Or.inl (List.mem_append.2 (Or.inl (List.mem_append.2 (Or.inl
    (List.mem_append.2 (Or.inr (mem_if_entry _ _ (isEmpty_false_of_ne_nil hne)))))))))

theorem error_data_mem_multilinks (mm : Model) (hne : multiple_links_between_nodes mm ≠ []) :
    VErr.multiple_links_between_nodes (multiple_links_between_nodes mm) ∈ error_data mm := by
  simp only [error_data]
  exact List.mem_append.2 (Or.inl (List.mem_append.2 (Or.inl (List.mem_append.2 (Or.inr
    (mem_if_entry _ _ (isEmpty_false_of_ne_nil hne)))))))

theorem error_data_mem_srlg (mm : Model) (hne : validate_srlg_nodes mm ≠ []) :
    VErr.srlg_errors (validate_srlg_nodes mm) ∈ error_data mm := by
  simp only [error_data]
  exact List.mem_append.2 (Or.inl (List.mem_append.2 (Or.inr
    (mem_if_entry _ _ (isEmpty_false_of_ne_nil hne)))))

theorem error_data_mem_dup_nodes (mm : Model)
    (hne : mm.node_objects.length ≠ (mm.node_objects.map Node.name).eraseDups.length) :
    VErr.duplicate_node_names mm.node_objects.length
        (mm.node_objects.map Node.name).eraseDups.length ∈ error_data mm := by
  simp only [error_data]
  refine List.mem_append.2 (Or.inr ?_)
  rw [if_pos hne]
  simp

theorem validate_model_finish_none (mm : Model) :
    (validate_model_finish (mm, none)).2
      = if (error_data mm).isEmpty then none
        else some (ModelError.validationFailed (error_data mm)) := by
  simp only [validate_model_finish]
  split <;> rfl

/-- Claim C7, counterexample: a model with an unpaired interface AND a
duplicated node name — validate_model raises the circuit-creation exception,
which carries only the unmatched-interface data, even though a second
violation (the duplicate node name) exists; the full-list aggregation claim
fails on this Model. -/
theorem C7_validate_model_counterexample :
    (validate_model mC7).2 = some (ModelError.circuitsNotMatched [("A", "B", 5)])
    ∧ mC7.node_objects.length ≠ (mC7.node_objects.map Node.name).eraseDups.length :=
  ⟨by decide, by decide⟩

/-- Claim C7, amended: except for unmatched-interface violations — which
raise immediately from circuit creation, before the other checks run — the
validator collects every remaining detected violation into one error_data
list, raises exactly one exception carrying that full list iff the list is
non-empty, and returns the model otherwise: each firing check contributes
its entry to the carried list. -/
theorem C7_validate_model_amended (m : Model) (h : (make_circuits m).2 = none) :
    ((validate_model m).2 = none ↔ error_data (make_circuits m).1 = [])
    ∧ (error_data (make_circuits m).1 ≠ [] →
        (validate_model m).2
          = some (ModelError.validationFailed (error_data (make_circuits m).1)))
    ∧ (int_res_bw_too_high (make_circuits m).1 ≠ [] →
        VErr.int_res_bw_too_high (int_res_bw_too_high (make_circuits m).1)
          ∈ error_data (make_circuits m).1)
    ∧ (int_res_bw_sum_error (make_circuits m).1 ≠ [] →
        VErr.int_res_bw_sum_error (int_res_bw_sum_error (make_circuits m).1)
          ∈ error_data (make_circuits m).1)
    ∧ (duplicate_interface_keys (make_circuits m).1 ≠ [] →
        VErr.duplicate_interfaces_on_node (duplicate_interface_keys (make_circuits m).1)
          ∈ error_data (make_circuits m).1)
    ∧ (mismatched_capacity_circuits (make_circuits m).1 ≠ [] →
        VErr.circuits_with_mismatched_interface_capacity
            (mismatched_capacity_circuits (make_circuits m).1)
          ∈ error_data (make_circuits m).1)
    ∧ (multiple_links_between_nodes (make_circuits m).1 ≠ [] →
        VErr.multiple_links_between_nodes (multiple_links_between_nodes (make_circuits m).1)
          ∈ error_data (make_circuits m).1)
    ∧ (validate_srlg_nodes (make_circuits m).1 ≠ [] →
        VErr.srlg_errors (validate_srlg_nodes (make_circuits m).1)
          ∈ error_data (make_circuits m).1)
    ∧ ((make_circuits m).1.node_objects.length
          ≠ ((make_circuits m).1.node_objects.map Node.name).eraseDups.length →
        VErr.duplicate_node_names (make_circuits m).1.node_objects.length
            ((make_circuits m).1.node_objects.map Node.name).eraseDups.length
          ∈ error_data (make_circuits m).1) := by
  have hpair : make_circuits m = ((make_circuits m).1, none) := by
    rw [← h]
  have hv : (validate_model m).2 = (validate_model_finish ((make_circuits m).1, none)).2 := by
    rw [validate_model, hpair]
  rw [hv, validate_model_finish_none]
  refine ⟨?_, ?_,
    fun hne => error_data_mem_bw_high _ hne,
    fun hne => error_data_mem_bw_sum _ hne,
    fun hne => error_data_mem_dup_intf _ hne,
    fun hne => error_data_mem_capacity _ hne,
    fun hne => error_data_mem_multilinks _ hne,
    fun hne => error_data_mem_srlg _ hne,
    fun hne => error_data_mem_dup_nodes _ hne⟩
  · by_cases hE : error_data (make_circuits m).1 = []
    · rw [if_pos (by rw [hE]; rfl)]
      simp [hE]
    · rw [if_neg (by rw [isEmpty_false_of_ne_nil hE]; exact Bool.false_ne_true)]
      simp [hE]
  · intro hne
    rw [if_neg (by rw [isEmpty_false_of_ne_nil hne]; exact Bool.false_ne_true)]

/-- Witness for the amended C7 on a fully valid concrete model: circuit
creation succeeds and validation returns without an exception. -/
theorem C7_validate_model_amended_witness :
    (make_circuits mC7w).2 = none ∧ (validate_model mC7w).2 = none := by
  have H := C7_validate_model_amended mC7w (by decide)
  exact ⟨by decide, H.1.mpr (by decide)⟩

/-- Claim C8, code-bug evaluation: the SRLG added by add_srlg exists, yet on
a model with any interface both fail_srlg and unfail_srlg die with an
AttributeError while filtering on srlg.interface_objects — an attribute the
SRLG class of srlg.py never defines — before failing any member Interface or
touching any failed flag. -/
theorem C8_fail_srlg_attribute_error :
    (add_srlg mC8base "grp1").2 = none
    ∧ fail_srlg mC8 "grp1" = (mC8, some ModelError.attributeError)
    ∧ unfail_srlg mC8 "grp1" = (mC8, some ModelError.attributeError) :=
  ⟨by decide, by decide, by decide⟩

/-- Claim C9, code-bug evaluation: for the SRLG S whose member node N does
not list S, validate_srlg_nodes maps N to the EMPTY list — the KeyError
handler initialises the entry without appending the SRLG name — instead of
to the list containing S; validate_model carries that defective entry. -/
theorem C9_validate_srlg_nodes_drops_first :
    validate_srlg_nodes mC9 = [("N", [])]
    ∧ validate_srlg_nodes mC9 ≠ [("N", ["S"])]
    ∧ (validate_model mC9).2
        = some (ModelError.validationFailed [VErr.srlg_errors [("N", [])]]) :=
  ⟨by decide, by decide, by decide⟩

end pyNTM
